import Mathlib

set_option maxRecDepth 10000

/-!
Shallow embedding of `noxfile.py` of the `haapi.games.rawg` repository.

The file defines Nox task sessions (pre-commit, safety, mypy, tests, coverage,
typeguard, xdoctest, docs-build, docs) plus one helper,
`activate_virtualenv_in_precommit_hooks`, which patches git hook scripts.

Modelling choices:
* A Nox `Session` is a record of the fields the file reads: `posargs`,
  `interactive`, `bin`, `env` (an association list, for `session.env.get`),
  and the length of `session._runner.manifest`.
* Subprocess invocations, installs and notifications become an `Event` trace;
  the filesystem visible to the hook helper is a `HookFS` record (existence of
  the `.git/hooks` directory plus the list of its entries).
* Python string operations used by the source (`splitlines`, `in`,
  `startswith`, `endswith`, `lower`, `str.join`, `repr`) are translated to
  executable Lean functions on `String`/`List Char`.  `lower` is modelled
  per-character with `Char.toLower` (ASCII case mapping); `repr` escapes
  ASCII control characters, backslashes and quotes and keeps other characters
  literal (Python additionally escapes some non-printable characters above
  `\x7f`; no claim depends on those).
* The expression `Path("A") == Path("a")` in the helper is a fact about the
  platform's filesystem case sensitivity; it is passed in as a Boolean
  parameter `ci` (true on a case-insensitive-path platform).
* A Python `IndexError` (the `lines[0]` access) is modelled by returning
  `none`.
-/

namespace Noxfile

/-! ### Python string primitives -/

/-- `pyStarts p s` is Python `s.startswith(p)` on exploded strings:
`p` is a prefix of `s`. -/
def pyStarts : List Char → List Char → Bool
  | [], _ => true
  | _ :: _, [] => false
  | a :: p, b :: s => (a == b) && pyStarts p s

/-- Python substring containment `n in h` on exploded strings. -/
def pySubstr (n : List Char) : List Char → Bool
  | [] => n.isEmpty
  | c :: t => pyStarts n (c :: t) || pySubstr n t

/-- Python `needle in haystack` for strings. -/
def pyInStr (needle haystack : String) : Bool :=
  pySubstr needle.toList haystack.toList

/-- Python `str.lower` on one character, modelled as ASCII case mapping. -/
def pyCharLower : Char → Char := Char.toLower

/-- Python `str.lower`, modelled character by character. -/
def pyLower (s : String) : String := ⟨s.toList.map pyCharLower⟩

/-- Python `s.startswith(p)`. -/
def pyStartswith (p s : String) : Bool := pyStarts p.toList s.toList

/-- Python `s.endswith(suffix)`. -/
def pyEndswith (suf s : String) : Bool :=
  pyStarts suf.toList.reverse s.toList.reverse

/-- Python `sep.join(xs)`. -/
def pyJoin (sep : String) : List String → String
  | [] => ""
  | x :: xs => xs.foldl (fun acc y => acc ++ sep ++ y) x

/-- Characters Python `str.splitlines` treats as line boundaries
(after `\r\n` has been normalised to a single `\n`). -/
def isPyLineBreak (c : Char) : Bool :=
  c == '\n' || c == '\r' || c == '\x0b' || c == '\x0c' ||
  c == '\x1c' || c == '\x1d' || c == '\x1e' ||
  c.val == 0x85 || c.val == 0x2028 || c.val == 0x2029

/-- Replace each `\r\n` pair by a single `\n`, so that `\r\n` counts as one
line boundary in `pySplitlines`. -/
def normCRLF : List Char → List Char
  | [] => []
  | '\r' :: '\n' :: cs => '\n' :: normCRLF cs
  | '\r' :: cs => '\r' :: normCRLF cs
  | c :: cs => c :: normCRLF cs

/-- Accumulator pass of `pySplitlines`: split at line-break characters,
dropping a trailing empty segment (Python keeps no final empty line). -/
def splitLinesAux : List Char → List Char → List String
  | [], acc => if acc.isEmpty then [] else [String.mk acc.reverse]
  | c :: cs, acc =>
    if isPyLineBreak c then String.mk acc.reverse :: splitLinesAux cs []
    else splitLinesAux cs (c :: acc)

/-- Python `text.splitlines()`. -/
def pySplitlines (s : String) : List String :=
  splitLinesAux (normCRLF s.toList) []

/-- Hex digit character used by `repr` escapes. -/
def hexDigit (n : Nat) : Char :=
  if n < 10 then Char.ofNat (48 + n) else Char.ofNat (87 + n)

/-- The quote character Python `repr` picks for a string: a single quote,
unless the string contains a single quote and no double quote. -/
def pyReprQuote (s : String) : Char :=
  if s.toList.contains '\'' && !s.toList.contains '"' then '"' else '\''

/-- How Python `repr` renders one character inside a string literal quoted by
`q`.  ASCII control characters, the backslash and the quote character are
escaped; other characters are kept literal. -/
def pyReprEscape (q c : Char) : List Char :=
  if c = '\\' then ['\\', '\\']
  else if c = q then ['\\', q]
  else if c = '\n' then ['\\', 'n']
  else if c = '\r' then ['\\', 'r']
  else if c = '\t' then ['\\', 't']
  else if c.val < 0x20 || c.val == 0x7f then
    ['\\', 'x', hexDigit (c.toNat / 16), hexDigit (c.toNat % 16)]
  else [c]

/-- The body (between the quotes) of Python `repr` of a string. -/
def pyReprBody (q : Char) : List Char → List Char
  | [] => []
  | c :: cs => pyReprEscape q c ++ pyReprBody q cs

/-- Python `repr` of a string. -/
def pyRepr (s : String) : String :=
  ⟨pyReprQuote s :: (pyReprBody (pyReprQuote s) s.toList ++ [pyReprQuote s])⟩

/-- `repr(s)[1:-1]` as in the source comment "strip quotes". -/
def pyReprStrip (s : String) : String :=
  ⟨((pyRepr s).toList.drop 1).dropLast⟩

/-! ### Data model: sessions, filesystem, events -/

/-- The slice of a Nox `Session` object that `noxfile.py` reads. -/
structure Session where
  posargs : List String
  interactive : Bool
  bin : Option String
  env : List (String × String)
  manifestLen : Nat
deriving DecidableEq

/-- `session.env.get(key)`. -/
def envGet (env : List (String × String)) (k : String) : Option String :=
  (env.find? (fun p => p.1 == k)).map Prod.snd

/-- One entry of the `.git/hooks` directory. -/
structure HookFile where
  name : String
  isFile : Bool
  content : String
deriving DecidableEq

/-- The filesystem state the hook helper can observe and modify. -/
structure HookFS where
  hookdirExists : Bool
  hooks : List HookFile
deriving DecidableEq

/-- File accesses the hook helper performs. -/
inductive FileEvent where
  | read (name : String)
  | write (name : String)
deriving DecidableEq

/-- Observable actions of a task: dependency installation, a subprocess
invocation, queuing another session, removing a directory tree, and the
call into the hook-patching helper. -/
inductive Event where
  | install (pkgs : List String)
  | run (cmd : String) (args : List String)
  | notify (sessionName : String)
  | removeTree (path : String)
  | patchHooks
deriving DecidableEq

/-! ### Module-level constants of `noxfile.py` -/

def package : String := "haapi.games.rawg"

def latest_python_version : String := "3.9"

def python_versions : List String := ["3.9", "3.8", "3.7", "3.6"]

def pytest_deps : List String :=
  ["pytest", "pygments", "aioresponses", "pytest-mock", "pytest-datadir",
   "pytest-asyncio"]

def base_docs_path : String := "docs"

def docs_build_path : String := base_docs_path ++ "/_build"

/-! ### The hook-patching helper -/

/-- The hook-text match condition
`Path("A") == Path("a") and bindir.lower() in text.lower() or bindir in text`;
`ci` stands for `Path("A") == Path("a")` (case-insensitive-path platform).
Python operator precedence groups this as `(ci and A) or B`. -/
def matchCond (ci : Bool) (bindir text : String) : Bool :=
  (ci && pyInStr (pyLower bindir) (pyLower text)) || pyInStr bindir text

/-- The shebang test of the helper applied to the whole hook text:
`lines[0].startswith("#!") and "python" in lines[0].lower()`, `false` when
the text has no first line at all. -/
def pyShebangOk (text : String) : Bool :=
  match pySplitlines text with
  | [] => false
  | l0 :: _ => pyStartswith "#!" l0 && pyInStr "python" (pyLower l0)

/-- The header block the helper inserts, i.e. the `dedent`-ed f-string of the
source (`{virtualenv!r}` and `{session.bin!r}` become `pyRepr` applications). -/
def precommitHeader (virtualenv bin : String) : String :=
  "import os\n"
  ++ "os.environ[\"VIRTUAL_ENV\"] = " ++ pyRepr virtualenv ++ "\n"
  ++ "os.environ[\"PATH\"] = os.pathsep.join((\n"
  ++ "    " ++ pyRepr bin ++ ",\n"
  ++ "    os.environ.get(\"PATH\", \"\"),\n"
  ++ "))\n"

/-- One iteration of the helper's `for hook in hookdir.iterdir()` loop:
skip `.sample` entries and non-regular files, read the text, test the
match condition, test the shebang, and rewrite the file with the header
inserted at position 1.  `none` models the `IndexError` the `lines[0]`
access would raise on an empty file. -/
def processHook (ci : Bool) (bindir header : String) (h : HookFile) :
    Option (HookFile × List FileEvent) :=
  if pyEndswith ".sample" h.name || !h.isFile then some (h, [])
  else if !matchCond ci bindir h.content then some (h, [FileEvent.read h.name])
  else
    match pySplitlines h.content with
    | [] => none
    | l0 :: rest =>
      if !(pyStartswith "#!" l0 && pyInStr "python" (pyLower l0)) then
        some (h, [FileEvent.read h.name])
      else
        some ({ h with content := pyJoin "\n" (l0 :: header :: rest) },
              [FileEvent.read h.name, FileEvent.write h.name])

/-- Run `processHook` over every directory entry, collecting the rewritten
entries and the file accesses; `none` as soon as one entry raises. -/
def runHooks (f : HookFile → Option (HookFile × List FileEvent)) :
    List HookFile → Option (List HookFile × List FileEvent)
  | [] => some ([], [])
  | h :: t =>
    match f h with
    | none => none
    | some p =>
      match runHooks f t with
      | none => none
      | some q => some (p.1 :: q.1, p.2 ++ q.2)

/-- `activate_virtualenv_in_precommit_hooks(session)`: early-return guards for
`session.bin is None`, a missing `VIRTUAL_ENV` environment entry and a
missing `.git/hooks` directory, then the per-hook patch loop.  The source
computes `bindir = repr(session.bin)[1:-1]` inside the loop; the value is
loop-invariant, so it is hoisted here. -/
def activate_virtualenv_in_precommit_hooks (ci : Bool) (s : Session)
    (fs : HookFS) : Option (HookFS × List FileEvent) :=
  match s.bin with
  | none => some (fs, [])
  | some bin =>
    match envGet s.env "VIRTUAL_ENV" with
    | none => some (fs, [])
    | some virtualenv =>
      if fs.hookdirExists then
        match runHooks
            (processHook ci (pyReprStrip bin) (precommitHeader virtualenv bin))
            fs.hooks with
        | none => none
        | some q => some ({ fs with hooks := q.1 }, q.2)
      else some (fs, [])

/-! ### The task sessions the claims are about -/

def precommitDeps : List String :=
  ["black", "darglint", "flake8", "flake8-bandit", "flake8-bugbear",
   "flake8-docstrings", "flake8-rst-docstrings", "pep8-naming", "pre-commit",
   "pre-commit-hooks", "reorder-python-imports"]

/-- The condition `args and args[0] == "install"` of the pre-commit task. -/
def wantsInstall : List String → Bool
  | a :: _ => a == "install"
  | [] => false

/-- The `pre-commit` task: install linters, run `pre-commit` with the
positional arguments (or the default argument list), and call the
hook-patching helper when the first argument is `install`.  The result is
the event trace, paired with the helper's result (the unchanged filesystem
and an empty access list when the helper is not called). -/
def precommit (ci : Bool) (s : Session) (fs : HookFS) :
    List Event × Option (HookFS × List FileEvent) :=
  let args :=
    if s.posargs.isEmpty then ["run", "--all-files", "--show-diff-on-failure"]
    else s.posargs
  let events := [Event.install precommitDeps, Event.run "pre-commit" args]
  if wantsInstall args then
    (events ++ [Event.patchHooks], activate_virtualenv_in_precommit_hooks ci s fs)
  else (events, some (fs, []))

/-- The `tests` task: installs, then `coverage run --parallel -m pytest`
inside `try`, with `finally: if session.interactive: session.notify("coverage")`.
`runFails` says whether the subprocess raises; the raise happens after the
invocation, so the trace is the same on both paths and only the returned
success flag differs. -/
def tests (s : Session) (runFails : Bool) : List Event × Bool :=
  ([Event.install ["."], Event.install ["coverage[toml]"],
    Event.install pytest_deps,
    Event.run "coverage" (["run", "--parallel", "-m", "pytest"] ++ s.posargs)]
   ++ (if s.interactive then [Event.notify "coverage"] else []),
   !runFails)

/-- The `coverage` task.  `coverageDataExists` models
`any(Path().glob(".coverage.*"))`. -/
def coverage (s : Session) (coverageDataExists : Bool) : List Event :=
  let has_args := !s.posargs.isEmpty && (s.manifestLen == 1)
  let args := if has_args then s.posargs else ["report"]
  [Event.install ["coverage[toml]"]]
  ++ (if !has_args && coverageDataExists then [Event.run "coverage" ["combine"]]
      else [])
  ++ [Event.run "coverage" args]

/-- The `docs-build` task.  `buildDirExists` models `build_dir.exists()` at
task start. -/
def docs_build (s : Session) (buildDirExists : Bool) : List Event :=
  [Event.install ["."], Event.install ["sphinx", "sphinx-rtd-theme"]]
  ++ (if buildDirExists then [Event.removeTree docs_build_path] else [])
  ++ [Event.run "sphinx-apidoc"
        ["-o", base_docs_path, "-fTPM", "--implicit-namespaces", "src/haapi"],
      Event.run "sphinx-build"
        (if s.posargs.isEmpty then [base_docs_path, docs_build_path]
         else s.posargs)]

/-- The `docs` task (live-reloading build). -/
def docs (s : Session) (buildDirExists : Bool) : List Event :=
  [Event.install ["."],
   Event.install ["sphinx", "sphinx-autobuild", "sphinx-rtd-theme"]]
  ++ (if buildDirExists then [Event.removeTree docs_build_path] else [])
  ++ [Event.run "sphinx-autobuild"
        (if s.posargs.isEmpty then ["--open-browser", base_docs_path, docs_build_path]
         else s.posargs)]

/-! ### Trace observations -/

/-- Whether an event is the `session.notify` of a given session name. -/
def isNotifyOf (name : String) : Event → Bool
  | Event.notify n => n == name
  | _ => false

/-- Whether an event is the call into the hook-patching helper. -/
def isPatchEvent : Event → Bool
  | Event.patchHooks => true
  | _ => false

/-- Whether an event runs one of the sphinx documentation tools. -/
def isDocToolRun : Event → Bool
  | Event.run c _ =>
    c == "sphinx-apidoc" || c == "sphinx-build" || c == "sphinx-autobuild"
  | _ => false

/-- Existence of the documentation build directory after an event, at the
model's granularity: only the explicit `shutil.rmtree(build_dir)` of the
noxfile changes it. -/
def buildDirAfter (b : Bool) : Event → Bool
  | Event.removeTree p => if p == docs_build_path then false else b
  | _ => b

/-- Pair every event of a trace with the build-directory existence
immediately before it, starting from `b`. -/
def annotateBuildDir (b : Bool) : List Event → List (Event × Bool)
  | [] => []
  | e :: es => (e, b) :: annotateBuildDir (buildDirAfter b e) es

/-! ### Lemmas about the Python string primitives -/

theorem string_toList_eq_nil (s : String) (h : s.toList = []) : s = "" := by
  cases s with
  | mk data =>
    cases data with
    | nil => rfl
    | cons a t => exact absurd h (by simp [String.toList])

theorem string_mk_ne_empty (l : List Char) (h : l ≠ []) : String.mk l ≠ "" := by
  intro hc
  apply h
  have : (String.mk l).toList = ("" : String).toList := by rw [hc]
  simpa [String.toList] using this

theorem splitLinesAux_ne_nil :
    ∀ l acc : List Char, l ≠ [] ∨ acc ≠ [] → splitLinesAux l acc ≠ [] := by
  intro l
  induction l with
  | nil =>
    intro acc h
    rcases h with h | h
    · exact absurd rfl h
    · cases acc with
      | nil => exact absurd rfl h
      | cons c t => simp [splitLinesAux]
  | cons c cs ih =>
    intro acc _
    simp only [splitLinesAux]
    split
    · simp
    · exact ih (c :: acc) (Or.inr (by simp))

theorem normCRLF_ne_nil (l : List Char) (h : l ≠ []) : normCRLF l ≠ [] := by
  rw [normCRLF.eq_def]
  split
  · exact absurd rfl h
  · simp
  · simp
  · simp

theorem pySplitlines_ne_nil (text : String) (ht : text ≠ "") :
    pySplitlines text ≠ [] := by
  unfold pySplitlines
  apply splitLinesAux_ne_nil
  left
  apply normCRLF_ne_nil
  intro hc
  exact ht (string_toList_eq_nil text hc)

theorem pyStarts_map_lower :
    ∀ n h : List Char, pyStarts n h = true →
      pyStarts (n.map pyCharLower) (h.map pyCharLower) = true := by
  intro n
  induction n with
  | nil => intro h _; rfl
  | cons a nt ih =>
    intro h hp
    cases h with
    | nil => exact absurd hp (by simp [pyStarts])
    | cons b ht =>
      simp only [pyStarts, Bool.and_eq_true, beq_iff_eq] at hp
      obtain ⟨hab, hrest⟩ := hp
      subst hab
      simp only [List.map, pyStarts, Bool.and_eq_true, beq_iff_eq]
      exact ⟨trivial, ih ht hrest⟩

theorem pySubstr_map_lower (n : List Char) :
    ∀ h : List Char, pySubstr n h = true →
      pySubstr (n.map pyCharLower) (h.map pyCharLower) = true := by
  intro h
  induction h with
  | nil =>
    intro hp
    simp only [pySubstr, List.isEmpty_iff] at hp
    subst hp
    simp [pySubstr]
  | cons c t ih =>
    intro hp
    simp only [pySubstr, Bool.or_eq_true] at hp ⊢
    rcases hp with hp | hp
    · exact Or.inl (pyStarts_map_lower _ _ hp)
    · exact Or.inr (ih hp)

theorem pyInStr_lower_of_pyInStr (n h : String) (hs : pyInStr n h = true) :
    pyInStr (pyLower n) (pyLower h) = true :=
  pySubstr_map_lower n.toList h.toList hs

theorem pySubstr_nil_of_ne_nil (n : List Char) (hn : n ≠ []) :
    pySubstr n [] = false := by
  cases n with
  | nil => exact absurd rfl hn
  | cons a t => simp [pySubstr]

theorem pyReprEscape_ne_nil (q c : Char) : pyReprEscape q c ≠ [] := by
  unfold pyReprEscape
  repeat' split
  all_goals simp

theorem pyReprBody_ne_nil (q : Char) (l : List Char) (h : l ≠ []) :
    pyReprBody q l ≠ [] := by
  cases l with
  | nil => exact absurd rfl h
  | cons c cs =>
    simp only [pyReprBody]
    intro hc
    rcases List.append_eq_nil.mp hc with ⟨h1, _⟩
    exact pyReprEscape_ne_nil q c h1

theorem pyReprStrip_eq (s : String) :
    pyReprStrip s = String.mk (pyReprBody (pyReprQuote s) s.toList) := by
  unfold pyReprStrip pyRepr
  simp [String.toList, List.dropLast_concat]

theorem pyReprStrip_ne_empty (s : String) (h : s ≠ "") : pyReprStrip s ≠ "" := by
  rw [pyReprStrip_eq]
  apply string_mk_ne_empty
  apply pyReprBody_ne_nil
  intro hc
  exact h (string_toList_eq_nil s hc)

theorem pyLower_toList_ne_nil (s : String) (h : s ≠ "") :
    (pyLower s).toList ≠ [] := by
  show s.toList.map pyCharLower ≠ []
  simp only [ne_eq, List.map_eq_nil_iff]
  intro hc
  exact h (string_toList_eq_nil s hc)

/-- A hook whose text satisfies the match condition for a non-empty `bindir`
has non-empty text. -/
theorem matchCond_text_ne_empty (ci : Bool) (bindir text : String)
    (hb : bindir ≠ "") (hm : matchCond ci bindir text = true) : text ≠ "" := by
  intro ht
  subst ht
  have hbl : bindir.toList ≠ [] := by
    intro hc; exact hb (string_toList_eq_nil bindir hc)
  unfold matchCond pyInStr at hm
  rw [Bool.or_eq_true] at hm
  rcases hm with hm | hm
  · rw [Bool.and_eq_true] at hm
    have h2 := hm.2
    have : pySubstr (pyLower bindir).toList [] = false :=
      pySubstr_nil_of_ne_nil _ (pyLower_toList_ne_nil bindir hb)
    rw [show (pyLower "").toList = ([] : List Char) from rfl] at h2
    rw [this] at h2
    exact Bool.false_ne_true h2
  · rw [show ("" : String).toList = ([] : List Char) from rfl] at hm
    rw [pySubstr_nil_of_ne_nil _ hbl] at hm
    exact Bool.false_ne_true hm

/-! ### Lemmas about the hook-processing loop -/

theorem processHook_ne_none (ci : Bool) (bindir header : String) (h : HookFile)
    (hb : bindir ≠ "") : processHook ci bindir header h ≠ none := by
  unfold processHook
  split
  · simp
  · split
    · simp
    · rename_i hmatch
      split
      · rename_i hnil
        have hm : matchCond ci bindir h.content = true := by
          revert hmatch
          cases matchCond ci bindir h.content <;> simp
        exact absurd hnil
          (pySplitlines_ne_nil h.content
            (matchCond_text_ne_empty ci bindir h.content hb hm))
      · split <;> simp

theorem runHooks_processHook_ne_none (ci : Bool) (bindir header : String)
    (hb : bindir ≠ "") (l : List HookFile) :
    runHooks (processHook ci bindir header) l ≠ none := by
  induction l with
  | nil => simp [runHooks]
  | cons a t ih =>
    unfold runHooks
    split
    · rename_i heq
      exact absurd heq (processHook_ne_none ci bindir header a hb)
    · split
      · rename_i heq
        exact absurd heq ih
      · simp

theorem runHooks_get (f : HookFile → Option (HookFile × List FileEvent)) :
    ∀ (l : List HookFile) (res : List HookFile × List FileEvent),
      runHooks f l = some res →
      ∀ (i : Nat) (h : HookFile), l[i]? = some h →
        ∃ p, f h = some p ∧ res.1[i]? = some p.1 := by
  intro l
  induction l with
  | nil =>
    intro res _ i h hget
    simp at hget
  | cons a t ih =>
    intro res hres i h hget
    unfold runHooks at hres
    cases hfa : f a with
    | none => rw [hfa] at hres; exact absurd hres (by simp)
    | some p =>
      rw [hfa] at hres
      cases hrt : runHooks f t with
      | none => rw [hrt] at hres; exact absurd hres (by simp)
      | some q =>
        rw [hrt] at hres
        dsimp only at hres
        rw [Option.some_inj] at hres
        cases i with
        | zero =>
          simp only [List.getElem?_cons_zero, Option.some_inj] at hget
          subst hget
          exact ⟨p, hfa, by rw [← hres]; simp⟩
        | succ n =>
          simp only [List.getElem?_cons_succ] at hget
          obtain ⟨p2, hf2, hg2⟩ := ih q hrt n h hget
          exact ⟨p2, hf2, by rw [← hres]; simpa using hg2⟩

/-- A hook whose text fails the Python-shebang test is returned unchanged by
the loop body (with no write access). -/
theorem processHook_of_not_shebang (ci : Bool) (bindir header : String)
    (h : HookFile) (p : HookFile × List FileEvent)
    (hp : processHook ci bindir header h = some p)
    (hsheb : pyShebangOk h.content = false) : p.1 = h := by
  unfold processHook at hp
  by_cases h1 : (pyEndswith ".sample" h.name || !h.isFile) = true
  · rw [if_pos h1, Option.some_inj] at hp; rw [← hp]
  · rw [if_neg h1] at hp
    by_cases h2 : (!matchCond ci bindir h.content) = true
    · rw [if_pos h2, Option.some_inj] at hp; rw [← hp]
    · rw [if_neg h2] at hp
      cases hsp : pySplitlines h.content with
      | nil => rw [hsp] at hp; exact absurd hp (by simp)
      | cons l0 rest =>
        rw [hsp] at hp
        dsimp only at hp
        unfold pyShebangOk at hsheb
        rw [hsp] at hsheb
        dsimp only at hsheb
        rw [hsheb] at hp
        simp only [Bool.not_false, if_pos] at hp
        rw [Option.some_inj] at hp; rw [← hp]

/-- A hook passing every guard is rewritten with the header inserted right
after its first line, the remaining lines kept, joined by newlines. -/
theorem processHook_patch_eq (ci : Bool) (bindir header : String) (h : HookFile)
    (hname : pyEndswith ".sample" h.name = false) (hfile : h.isFile = true)
    (hmatch : matchCond ci bindir h.content = true)
    (l0 : String) (rest : List String)
    (hsplit : pySplitlines h.content = l0 :: rest)
    (hsheb : (pyStartswith "#!" l0 && pyInStr "python" (pyLower l0)) = true) :
    processHook ci bindir header h =
      some ({ h with content := pyJoin "\n" (l0 :: header :: rest) },
            [FileEvent.read h.name, FileEvent.write h.name]) := by
  unfold processHook
  rw [hname, hfile, hmatch, hsplit]
  dsimp only
  rw [hsheb]
  simp

/-! ### C1: coverage notification of the tests task -/

/-- C1 (counterexample): the claim says a coverage session is scheduled for
every run of the tests task; a non-interactive run — even on the failure
path — schedules none, because the `finally` block guards the
`session.notify("coverage")` with `if session.interactive`. -/
theorem tests_noninteractive_run_no_notify :
    (tests (Session.mk [] false none [] 1) true).1.any (isNotifyOf "coverage")
      = false := by
  decide

/-- C1 (amended): for every interactive run of the tests task the coverage
session is notified immediately after the `coverage run … pytest` subprocess
invocation, whether or not that invocation fails. -/
theorem tests_interactive_notifies_after_run (s : Session) (runFails : Bool)
    (hint : s.interactive = true) :
    (tests s runFails).1 =
      [Event.install ["."], Event.install ["coverage[toml]"],
       Event.install pytest_deps,
       Event.run "coverage" (["run", "--parallel", "-m", "pytest"] ++ s.posargs),
       Event.notify "coverage"] := by
  simp [tests, hint]

/-- C1 (witness): the amended theorem at a concrete interactive failing run. -/
theorem tests_interactive_notifies_after_run_witness :
    (Session.mk ["-k", "api"] true none [] 1).interactive = true
    ∧ (tests (Session.mk ["-k", "api"] true none [] 1) true).1 =
      [Event.install ["."], Event.install ["coverage[toml]"],
       Event.install pytest_deps,
       Event.run "coverage" (["run", "--parallel", "-m", "pytest"] ++ ["-k", "api"]),
       Event.notify "coverage"] :=
  ⟨rfl, tests_interactive_notifies_after_run (Session.mk ["-k", "api"] true none [] 1) true rfl⟩

/-! ### C2: coverage task argument selection -/

/-- C2: the coverage task runs the coverage tool with the caller-supplied
positional arguments exactly when they are present and the runner manifest
has length one; in every other case it runs `coverage report`, preceded by
`coverage combine` exactly when a `.coverage.*` data file exists. -/
theorem coverage_posargs_spec (s : Session) (dataExists : Bool) :
    coverage s dataExists =
      if s.posargs ≠ [] ∧ s.manifestLen = 1 then
        [Event.install ["coverage[toml]"], Event.run "coverage" s.posargs]
      else
        [Event.install ["coverage[toml]"]]
        ++ (if dataExists then [Event.run "coverage" ["combine"]] else [])
        ++ [Event.run "coverage" ["report"]] := by
  cases hp : s.posargs with
  | nil => simp [coverage, hp]
  | cons a t =>
    by_cases hm : s.manifestLen = 1
    · simp [coverage, hp, hm]
    · simp [coverage, hp, hm]

/-! ### C3: preconditions of the hook-patching helper -/

def c3session : Session :=
  { posargs := [], interactive := false, bin := some "/venv/bin",
    env := [("VIRTUAL_ENV", "/venv")], manifestLen := 1 }

def c3hook : HookFile :=
  { name := "pre-commit", isFile := true,
    content := "#!/usr/bin/python\nexec /venv/bin/pre-commit" }

def c3fs : HookFS := { hookdirExists := true, hooks := [c3hook] }

/-- The content of `c3hook` after patching: the header inserted after the
shebang line. -/
def c3patchedContent : String :=
  pyJoin "\n" ["#!/usr/bin/python", precommitHeader "/venv" "/venv/bin",
               "exec /venv/bin/pre-commit"]

def c3patchedFS : HookFS :=
  { hookdirExists := true,
    hooks := [{ name := "pre-commit", isFile := true,
                content := c3patchedContent }] }

/-- C3 (counterexample): the helper is not a no-op for a non-interactive
session — interactivity is not one of its guards (the first guard is
`session.bin is None`): with `interactive = false` but `bin` set,
`VIRTUAL_ENV` present and the hooks directory existing, it still reads and
rewrites a matching hook. -/
theorem helper_noninteractive_session_still_writes :
    c3session.interactive = false
    ∧ activate_virtualenv_in_precommit_hooks false c3session c3fs
        = some (c3patchedFS,
                [FileEvent.read "pre-commit", FileEvent.write "pre-commit"])
    ∧ activate_virtualenv_in_precommit_hooks false c3session c3fs
        ≠ some (c3fs, []) :=
  ⟨rfl, by decide, by decide⟩

/-- C3 (amended): the helper is a no-op — it returns the filesystem unchanged
and performs no file access — whenever `session.bin` is `None`, the
`VIRTUAL_ENV` environment entry is absent, or the `.git/hooks` directory
does not exist (non-interactivity is not among the guards). -/
theorem helper_noop_on_missing_preconditions (ci : Bool) (s : Session)
    (fs : HookFS)
    (hpre : s.bin = none ∨ envGet s.env "VIRTUAL_ENV" = none
            ∨ fs.hookdirExists = false) :
    activate_virtualenv_in_precommit_hooks ci s fs = some (fs, []) := by
  unfold activate_virtualenv_in_precommit_hooks
  rcases hpre with hb | he | hd
  · rw [hb]
  · cases hbin : s.bin with
    | none => rfl
    | some b =>
      dsimp only
      rw [he]
  · cases hbin : s.bin with
    | none => rfl
    | some b =>
      dsimp only
      cases henv : envGet s.env "VIRTUAL_ENV" with
      | none => rfl
      | some v =>
        dsimp only
        rw [hd]
        simp

/-- C3 (witness): the amended theorem at a concrete state missing the
hooks directory. -/
theorem helper_noop_on_missing_preconditions_witness :
    ((Session.mk [] true (some "/venv/bin") [("VIRTUAL_ENV", "/venv")] 1).bin = none
     ∨ envGet (Session.mk [] true (some "/venv/bin") [("VIRTUAL_ENV", "/venv")] 1).env "VIRTUAL_ENV" = none
     ∨ (HookFS.mk false [c3hook]).hookdirExists = false)
    ∧ activate_virtualenv_in_precommit_hooks true
        (Session.mk [] true (some "/venv/bin") [("VIRTUAL_ENV", "/venv")] 1)
        (HookFS.mk false [c3hook])
      = some (HookFS.mk false [c3hook], []) :=
  ⟨Or.inr (Or.inr rfl),
   helper_noop_on_missing_preconditions true
     (Session.mk [] true (some "/venv/bin") [("VIRTUAL_ENV", "/venv")] 1)
     (HookFS.mk false [c3hook]) (Or.inr (Or.inr rfl))⟩

/-! ### C4: files without a Python shebang are never modified -/

/-- C4: whenever the helper completes, every hook file whose text does not
begin with a `#!` line containing `python` (case-insensitively) is left
byte-for-byte unchanged at its position in the hooks directory. -/
theorem helper_never_writes_non_python_shebang (ci : Bool) (s : Session)
    (fs : HookFS) (out : HookFS × List FileEvent)
    (hrun : activate_virtualenv_in_precommit_hooks ci s fs = some out)
    (i : Nat) (h : HookFile) (hget : fs.hooks[i]? = some h)
    (hsheb : pyShebangOk h.content = false) :
    out.1.hooks[i]? = some h := by
  unfold activate_virtualenv_in_precommit_hooks at hrun
  cases hbin : s.bin with
  | none =>
    rw [hbin] at hrun
    dsimp only at hrun
    rw [Option.some_inj] at hrun
    rw [← hrun]
    exact hget
  | some b =>
    rw [hbin] at hrun
    dsimp only at hrun
    cases henv : envGet s.env "VIRTUAL_ENV" with
    | none =>
      rw [henv] at hrun
      dsimp only at hrun
      rw [Option.some_inj] at hrun
      rw [← hrun]
      exact hget
    | some v =>
      rw [henv] at hrun
      dsimp only at hrun
      by_cases hd : fs.hookdirExists
      · rw [if_pos hd] at hrun
        cases hrh : runHooks
            (processHook ci (pyReprStrip b) (precommitHeader v b)) fs.hooks with
        | none => rw [hrh] at hrun; exact absurd hrun (by simp)
        | some q =>
          rw [hrh] at hrun
          dsimp only at hrun
          rw [Option.some_inj] at hrun
          obtain ⟨p, hfp, hgot⟩ := runHooks_get _ fs.hooks q hrh i h hget
          have hp1 : p.1 = h := processHook_of_not_shebang ci _ _ h p hfp hsheb
          rw [← hrun]
          dsimp only
          rw [hgot, hp1]
      · rw [if_neg hd, Option.some_inj] at hrun
        rw [← hrun]
        exact hget

def w4session : Session :=
  { posargs := [], interactive := true, bin := some "/venv/bin",
    env := [("VIRTUAL_ENV", "/venv")], manifestLen := 1 }

def w4hook : HookFile :=
  { name := "pre-commit", isFile := true, content := "exec /venv/bin/pre-commit" }

def w4fs : HookFS := { hookdirExists := true, hooks := [w4hook] }

/-- C4 (witness): the theorem at a concrete hook whose text matches the bin
directory but has no Python shebang. -/
theorem helper_never_writes_non_python_shebang_witness :
    activate_virtualenv_in_precommit_hooks false w4session w4fs
      = some (w4fs, [FileEvent.read "pre-commit"])
    ∧ w4fs.hooks[0]? = some w4hook
    ∧ pyShebangOk w4hook.content = false
    ∧ (w4fs, [FileEvent.read "pre-commit"]).1.hooks[0]? = some w4hook :=
  ⟨by decide, by decide, by decide,
   helper_never_writes_non_python_shebang false w4session w4fs
     (w4fs, [FileEvent.read "pre-commit"]) (by decide) 0 w4hook
     (by decide) (by decide)⟩

/-! ### C5: the docs build directory is absent before the sphinx commands -/

/-- C5: in both documentation tasks the build directory `docs/_build` is
absent immediately before each sphinx command runs: the traces, annotated
with the directory's existence just before each event, carry `false` at
every `sphinx-apidoc`, `sphinx-build` and `sphinx-autobuild` invocation,
for any initial existence state and any positional arguments. -/
theorem docs_build_dir_absent_before_doc_tools (s : Session) (init : Bool) :
    annotateBuildDir init (docs_build s init) =
      [(Event.install ["."], init),
       (Event.install ["sphinx", "sphinx-rtd-theme"], init)]
      ++ (if init then [(Event.removeTree docs_build_path, true)] else [])
      ++ [(Event.run "sphinx-apidoc"
             ["-o", base_docs_path, "-fTPM", "--implicit-namespaces", "src/haapi"],
           false),
          (Event.run "sphinx-build"
             (if s.posargs.isEmpty then [base_docs_path, docs_build_path]
              else s.posargs),
           false)]
    ∧ annotateBuildDir init (docs s init) =
      [(Event.install ["."], init),
       (Event.install ["sphinx", "sphinx-autobuild", "sphinx-rtd-theme"], init)]
      ++ (if init then [(Event.removeTree docs_build_path, true)] else [])
      ++ [(Event.run "sphinx-autobuild"
             (if s.posargs.isEmpty then
                ["--open-browser", base_docs_path, docs_build_path]
              else s.posargs),
           false)] := by
  cases init <;> exact ⟨rfl, rfl⟩

/-! ### C6: when the pre-commit task calls the helper -/

def c6session : Session :=
  { posargs := ["install"], interactive := false, bin := some "/venv/bin",
    env := [("VIRTUAL_ENV", "/venv")], manifestLen := 1 }

def c6hook : HookFile :=
  { name := "pre-push", isFile := true,
    content := "#!/usr/bin/python\nexec /venv/bin/pre-push" }

def c6fs : HookFS := { hookdirExists := true, hooks := [c6hook] }

/-- C6 (counterexample): the pre-commit task has no interactivity guard:
invoked non-interactively with posargs `["install"]` it still calls the
hook-patching helper and a git hook file is rewritten. -/
theorem precommit_install_noninteractive_rewrites_hook :
    c6session.interactive = false
    ∧ (precommit false c6session c6fs).1.any isPatchEvent = true
    ∧ (precommit false c6session c6fs).2 ≠ some (c6fs, []) :=
  ⟨rfl, by decide, by decide⟩

/-- C6 (amended): the pre-commit task calls the hook-patching helper exactly
when its positional arguments are non-empty with first element `"install"`
— regardless of interactivity (the default argument list starts with
`"run"`, so empty posargs never trigger the call); in every other
invocation no hook file is touched. -/
theorem precommit_calls_helper_iff_install (ci : Bool) (s : Session)
    (fs : HookFS) :
    ((precommit ci s fs).1.any isPatchEvent = wantsInstall s.posargs)
    ∧ (wantsInstall s.posargs = false →
        (precommit ci s fs).2 = some (fs, [])) := by
  cases hp : s.posargs with
  | nil =>
    have hw : wantsInstall ["run", "--all-files", "--show-diff-on-failure"]
        = false := by decide
    constructor
    · simp [precommit, hp, hw, wantsInstall, isPatchEvent]
    · intro _
      simp [precommit, hp, hw]
  | cons a t =>
    by_cases ha : a = "install"
    · subst ha
      constructor
      · simp [precommit, hp, wantsInstall, isPatchEvent]
      · intro hfalse
        exfalso
        revert hfalse
        simp [wantsInstall]
    · constructor
      · simp [precommit, hp, wantsInstall, isPatchEvent, ha]
      · intro _
        simp [precommit, hp, wantsInstall, ha]

/-- C6 (witness): the amended theorem at a concrete invocation without
`install`, where the filesystem is untouched. -/
theorem precommit_calls_helper_iff_install_witness :
    wantsInstall (Session.mk [] true (some "/venv/bin") [] 1).posargs = false
    ∧ (precommit false (Session.mk [] true (some "/venv/bin") [] 1)
         (HookFS.mk true [c6hook])).2 = some (HookFS.mk true [c6hook], []) :=
  ⟨by decide,
   (precommit_calls_helper_iff_install false
      (Session.mk [] true (some "/venv/bin") [] 1)
      (HookFS.mk true [c6hook])).2 (by decide)⟩

/-! ### C7: the patch performed on a passing hook -/

/-- C7: a hook that passes every guard (regular non-`.sample` file, text
matching the bin directory, first line a Python shebang) is rewritten with
exactly one header block — assigning `VIRTUAL_ENV` to the session's virtual
environment and prepending the session bin directory to `PATH` — inserted
immediately after the shebang line, all lines joined back with newlines and
all original lines kept intact. -/
theorem helper_patches_matching_python_hook (ci : Bool) (s : Session)
    (b v : String) (fs : HookFS) (out : HookFS × List FileEvent)
    (hbin : s.bin = some b) (henv : envGet s.env "VIRTUAL_ENV" = some v)
    (hd : fs.hookdirExists = true)
    (hrun : activate_virtualenv_in_precommit_hooks ci s fs = some out)
    (i : Nat) (h : HookFile) (hget : fs.hooks[i]? = some h)
    (hname : pyEndswith ".sample" h.name = false) (hfile : h.isFile = true)
    (hmatch : matchCond ci (pyReprStrip b) h.content = true)
    (l0 : String) (rest : List String)
    (hsplit : pySplitlines h.content = l0 :: rest)
    (hsheb : (pyStartswith "#!" l0 && pyInStr "python" (pyLower l0)) = true) :
    out.1.hooks[i]? =
      some { h with content := pyJoin "\n" (l0 :: precommitHeader v b :: rest) } := by
  unfold activate_virtualenv_in_precommit_hooks at hrun
  rw [hbin] at hrun
  dsimp only at hrun
  rw [henv] at hrun
  dsimp only at hrun
  rw [if_pos hd] at hrun
  cases hrh : runHooks
      (processHook ci (pyReprStrip b) (precommitHeader v b)) fs.hooks with
  | none => rw [hrh] at hrun; exact absurd hrun (by simp)
  | some q =>
    rw [hrh] at hrun
    dsimp only at hrun
    rw [Option.some_inj] at hrun
    obtain ⟨p, hfp, hgot⟩ := runHooks_get _ fs.hooks q hrh i h hget
    rw [processHook_patch_eq ci (pyReprStrip b) (precommitHeader v b) h
          hname hfile hmatch l0 rest hsplit hsheb] at hfp
    rw [Option.some_inj] at hfp
    rw [← hrun]
    dsimp only
    rw [hgot, ← hfp]

def w7session : Session :=
  { posargs := ["install"], interactive := true, bin := some "/venv/bin",
    env := [("VIRTUAL_ENV", "/venv")], manifestLen := 1 }

def w7hook : HookFile :=
  { name := "pre-commit", isFile := true,
    content := "#!/usr/bin/python\nexec /venv/bin/pre-commit" }

def w7fs : HookFS := { hookdirExists := true, hooks := [w7hook] }

/-- The content of `w7hook` after patching. -/
def w7patchedContent : String :=
  pyJoin "\n" ["#!/usr/bin/python", precommitHeader "/venv" "/venv/bin",
               "exec /venv/bin/pre-commit"]

def w7patchedHook : HookFile :=
  { name := "pre-commit", isFile := true, content := w7patchedContent }

def w7out : HookFS × List FileEvent :=
  ({ hookdirExists := true, hooks := [w7patchedHook] },
   [FileEvent.read "pre-commit", FileEvent.write "pre-commit"])

/-- C7 (witness): the theorem at a concrete passing hook. -/
theorem helper_patches_matching_python_hook_witness :
    w7session.bin = some "/venv/bin"
    ∧ envGet w7session.env "VIRTUAL_ENV" = some "/venv"
    ∧ w7fs.hookdirExists = true
    ∧ activate_virtualenv_in_precommit_hooks false w7session w7fs = some w7out
    ∧ w7fs.hooks[0]? = some w7hook
    ∧ pyEndswith ".sample" w7hook.name = false
    ∧ w7hook.isFile = true
    ∧ matchCond false (pyReprStrip "/venv/bin") w7hook.content = true
    ∧ pySplitlines w7hook.content
        = ["#!/usr/bin/python", "exec /venv/bin/pre-commit"]
    ∧ (pyStartswith "#!" "#!/usr/bin/python"
        && pyInStr "python" (pyLower "#!/usr/bin/python")) = true
    ∧ w7out.1.hooks[0]? = some w7patchedHook :=
  ⟨rfl, by decide, rfl, by decide, by decide, by decide, rfl, by decide,
   by decide, by decide,
   helper_patches_matching_python_hook false w7session "/venv/bin" "/venv"
     w7fs w7out rfl (by decide) rfl (by decide) 0 w7hook (by decide)
     (by decide) rfl (by decide) "#!/usr/bin/python"
     ["exec /venv/bin/pre-commit"] (by decide) (by decide)⟩

/-! ### C8: platform dependence of the hook-text match condition -/

/-- C8: by Python operator precedence the match condition is
`(Path("A") == Path("a") and ci-substring) or exact-substring`; on a
case-sensitive-path platform it is exactly the exact-substring test, and on
a case-insensitive-path platform it is exactly the case-insensitive
substring test (which the exact test implies). -/
theorem matchCond_platform_dependence (bindir text : String) :
    matchCond false bindir text = pyInStr bindir text
    ∧ matchCond true bindir text = pyInStr (pyLower bindir) (pyLower text) := by
  constructor
  · simp [matchCond]
  · cases hB : pyInStr bindir text with
    | false => simp [matchCond, hB]
    | true =>
      have hA := pyInStr_lower_of_pyInStr bindir text hB
      simp [matchCond, hA, hB]

/-! ### C9: the first-line access is in bounds -/

/-- C9: with a non-empty session bin directory the `lines[0]` access never
raises: it is reached only when the hook text contains the (non-empty)
stripped repr of the bin directory, so the text is non-empty and
`splitlines` yields at least one line; the helper never returns the
`IndexError` value. -/
theorem helper_first_line_access_in_bounds (ci : Bool) (s : Session)
    (fs : HookFS) (hb : s.bin ≠ some "") :
    activate_virtualenv_in_precommit_hooks ci s fs ≠ none := by
  unfold activate_virtualenv_in_precommit_hooks
  cases hbin : s.bin with
  | none => simp
  | some b =>
    dsimp only
    cases henv : envGet s.env "VIRTUAL_ENV" with
    | none => simp
    | some v =>
      dsimp only
      by_cases hd : fs.hookdirExists
      · rw [if_pos hd]
        have hbne : b ≠ "" := by
          intro hcon
          subst hcon
          exact hb hbin
        cases hrh : runHooks
            (processHook ci (pyReprStrip b) (precommitHeader v b)) fs.hooks with
        | none =>
          exact absurd hrh
            (runHooks_processHook_ne_none ci (pyReprStrip b)
              (precommitHeader v b) (pyReprStrip_ne_empty b hbne) fs.hooks)
        | some q => simp
      · rw [if_neg hd]
        simp

def w9session : Session :=
  { posargs := [], interactive := true, bin := some "/venv/bin",
    env := [("VIRTUAL_ENV", "/venv")], manifestLen := 1 }

def w9fs : HookFS :=
  { hookdirExists := true,
    hooks := [{ name := "post-commit", isFile := true, content := "" }] }

/-- C9 (witness): the theorem at a concrete state including an empty hook
file (which the match condition skips without reaching `lines[0]`). -/
theorem helper_first_line_access_in_bounds_witness :
    w9session.bin ≠ some ""
    ∧ activate_virtualenv_in_precommit_hooks false w9session w9fs ≠ none :=
  ⟨by decide,
   helper_first_line_access_in_bounds false w9session w9fs (by decide)⟩

/-! ### C10: `.sample` entries and non-regular files are skipped -/

/-- C10: the loop body of the helper neither reads nor writes a directory
entry whose name ends in `.sample` or that is not a regular file: such an
entry is returned unchanged with an empty file-access list. -/
theorem helper_skips_sample_and_non_regular (ci : Bool)
    (bindir header : String) (h : HookFile)
    (hskip : pyEndswith ".sample" h.name = true ∨ h.isFile = false) :
    processHook ci bindir header h = some (h, []) := by
  unfold processHook
  have hcond : (pyEndswith ".sample" h.name || !h.isFile) = true := by
    rcases hskip with hn | hf
    · rw [hn]
      rfl
    · rw [hf]
      simp
  rw [if_pos hcond]

def w10hook : HookFile :=
  { name := "pre-commit.sample", isFile := true,
    content := "#!/usr/bin/python\nexec /venv/bin/pre-commit" }

/-- C10 (witness): the theorem at a concrete `.sample` entry whose content
would otherwise pass every other guard. -/
theorem helper_skips_sample_and_non_regular_witness :
    (pyEndswith ".sample" w10hook.name = true ∨ w10hook.isFile = false)
    ∧ processHook false "/venv/bin" "hdr" w10hook = some (w10hook, []) :=
  ⟨Or.inl (by decide),
   helper_skips_sample_and_non_regular false "/venv/bin" "hdr" w10hook
     (Or.inl (by decide))⟩

end Noxfile
